import Mathlib

/-!
Shallow embedding of the peruse parser-combinator engine
(src/peruse/parsers.rs and src/peruse/slice_parsers.rs).

A parser value is reduced to its one capability, the parse function, so a
child parser is embedded as a function from an input to a parse result.
The two source loops (RepeatParser::parse and RepSepParser::parse) are
embedded with an explicit fuel parameter: the embedding returns none when
the loop has not returned within the given number of iterations, so every
terminating run of the source loop is captured by some fuel value and a
statement over all fuel values covers every terminating execution.
-/

namespace Peruse

/-- Embedding of the Rust type ParseResult<I, O> = Result<(O, I), String>: a
successful parse holds the output value and the remaining input, a failure
holds an error message. -/
abbrev ParseResult (I O : Type) : Type := Except String (O × I)

/-- Embedding of a parser: the trait Parser reduced to its parse method. -/
abbrev Parser (I O : Type) : Type := I → ParseResult I O

/-- Embedding of struct ChainedParser from parsers.rs: two parsers used in
sequence to produce a tuple of parsed values. -/
structure ChainedParser (I A B : Type) where
  first : Parser I A
  second : Parser I B

/-- Embedding of ChainedParser::parse (parsers.rs lines 192-200). -/
def ChainedParser.parse (self : ChainedParser I A B) (data : I) :
    ParseResult I (A × B) :=
  match self.first data with
  | .ok (a, d2) =>
    match self.second d2 with
    | .ok (b, remain) => .ok ((a, b), remain)
    | .error err => .error err
  | .error err => .error err

/-- Embedding of struct RepeatParser from parsers.rs. -/
structure RepeatParser (I O : Type) where
  parser : Parser I O

/-- Embedding of the loop body of RepeatParser::parse (parsers.rs lines
222-236), with the mutable state (remain, v) passed explicitly and a fuel
bound on the number of iterations; none means the loop has not returned
within that many iterations. -/
def RepeatParser.parseLoop (self : RepeatParser I O) :
    Nat → I → List O → Option (ParseResult I (List O))
  | 0, _, _ => none
  | fuel + 1, remain, v =>
    match self.parser remain with
    | .ok (result, rest) => RepeatParser.parseLoop self fuel rest (v ++ [result])
    | .error _ => some (.ok (v, remain))

/-- Embedding of RepeatParser::parse: the loop entered with an empty
accumulator and the full input. -/
def RepeatParser.parse (self : RepeatParser I O) (fuel : Nat) (data : I) :
    Option (ParseResult I (List O)) :=
  RepeatParser.parseLoop self fuel data []

/-- The behaviour the specification describes for repetition, written as a
direct recursion with no accumulator: apply the parser; on failure succeed
with the empty sequence and the untouched input; on success prepend the
output to the result of repeating on the remainder.  Compared against
RepeatParser.parse in the repetition theorem. -/
def RepeatParser.runs (self : RepeatParser I O) :
    Nat → I → Option (List O × I)
  | 0, _ => none
  | fuel + 1, data =>
    match self.parser data with
    | .error _ => some ([], data)
    | .ok (o, rest) =>
      (RepeatParser.runs self fuel rest).map (fun vr => (o :: vr.1, vr.2))

/-- Embedding of struct MapParser from parsers.rs: a parser plus a total
mapping function applied to its output. -/
structure MapParser (I O T : Type) where
  parser : Parser I O
  mapper : O → T

/-- Embedding of MapParser::parse (parsers.rs lines 258-261): Result::map
applied to the underlying parse result. -/
def MapParser.parse (self : MapParser I O T) (data : I) : ParseResult I T :=
  (self.parser data).map (fun oi => (self.mapper oi.1, oi.2))

/-- Embedding of struct OrParser from parsers.rs. -/
structure OrParser (I O : Type) where
  first : Parser I O
  second : Parser I O

/-- Embedding of OrParser::parse (parsers.rs lines 282-290). -/
def OrParser.parse (self : OrParser I O) (data : I) : ParseResult I O :=
  match self.first data with
  | .ok (a, d2) => .ok (a, d2)
  | .error _ =>
    match self.second data with
    | .ok (b, remain) => .ok (b, remain)
    | .error err => .error err

/-- Embedding of struct OptionParser from parsers.rs. -/
structure OptionParser (I O : Type) where
  parser : Parser I O

/-- Embedding of OptionParser::parse (parsers.rs lines 311-316). -/
def OptionParser.parse (self : OptionParser I O) (data : I) :
    ParseResult I (Option O) :=
  match self.parser data with
  | .ok (result, rest) => .ok (some result, rest)
  | .error _ => .ok (none, data)

/-- Embedding of the function opt (parsers.rs lines 81-83). -/
def opt (t : Parser I O) : OptionParser I O :=
  ⟨t⟩

/-- Embedding of struct RepSepParser from parsers.rs. -/
structure RepSepParser (I A B : Type) where
  rep : Parser I A
  sep : Parser I B
  min_reps : Nat

/-- Embedding of the loop body of RepSepParser::parse (parsers.rs lines
357-382), with the mutable state (remain, v) passed explicitly and a fuel
bound on the number of iterations; none means the loop has not returned
within that many iterations. -/
def RepSepParser.parseLoop (self : RepSepParser I A B) :
    Nat → I → List A → Option (ParseResult I (List A))
  | 0, _, _ => none
  | fuel + 1, remain, v =>
    match self.rep remain with
    | .ok (result, rest) =>
      match self.sep rest with
      | .ok (_, rest2) => RepSepParser.parseLoop self fuel rest2 (v ++ [result])
      | .error _ =>
        if (v ++ [result]).length < self.min_reps then
          some (.error ("Not enough reps: required " ++ toString self.min_reps
            ++ ", got " ++ toString (v ++ [result]).length))
        else
          some (.ok (v ++ [result], rest))
    | .error err => some (.error ("Error on rep: " ++ err))

/-- Embedding of RepSepParser::parse: the loop entered with an empty
accumulator and the full input. -/
def RepSepParser.parse (self : RepSepParser I A B) (fuel : Nat) (data : I) :
    Option (ParseResult I (List A)) :=
  RepSepParser.parseLoop self fuel data []

/-- The behaviour the specification describes for separated repetition,
written as a direct recursion carrying only the count of outputs accumulated
so far: parse rep; on failure escalate rep's error (so no partial list can
be returned on that path); on success attempt sep, continuing from sep's
remainder when it succeeds; when sep fails, fail with the NotEnoughReps
error if the accumulated count is below min_reps and otherwise succeed with
the outputs in order and the remainder from just after the last successful
rep.  Compared against RepSepParser.parse in the repsep theorem. -/
def RepSepParser.runs (self : RepSepParser I A B) :
    Nat → I → Nat → Option (ParseResult I (List A))
  | 0, _, _ => none
  | fuel + 1, data, cnt =>
    match self.rep data with
    | .error err => some (.error ("Error on rep: " ++ err))
    | .ok (o, rest) =>
      match self.sep rest with
      | .ok (_, rest2) =>
        (RepSepParser.runs self fuel rest2 (cnt + 1)).map (fun r =>
          match r with
          | .ok (w, rem) => .ok (o :: w, rem)
          | .error e => .error e)
      | .error _ =>
        if cnt + 1 < self.min_reps then
          some (.error ("Not enough reps: required " ++ toString self.min_reps
            ++ ", got " ++ toString (cnt + 1)))
        else
          some (.ok ([o], rest))

/-- Embedding of the function repsep (parsers.rs lines 124-126): min_reps
is fixed to 1. -/
def repsep (rep : Parser I A) (sep : Parser I B) : RepSepParser I A B :=
  ⟨rep, sep, 1⟩

/-- Embedding of struct OneOfParser from parsers.rs. -/
structure OneOfParser (I O : Type) where
  options : List (Parser I O)

/-- Embedding of the for loop of OneOfParser::parse (parsers.rs lines
408-416): try each option in order on the same data, return the first ok
result, and fail with "All options failed" after the loop. -/
def OneOfParser.parseList (options : List (Parser I O)) (data : I) :
    ParseResult I O :=
  match options with
  | [] => .error "All options failed"
  | p :: rest =>
    match p data with
    | .ok r => .ok r
    | .error _ => OneOfParser.parseList rest data

/-- Embedding of OneOfParser::parse. -/
def OneOfParser.parse (self : OneOfParser I O) (data : I) : ParseResult I O :=
  OneOfParser.parseList self.options data

/-- Embedding of the function one_of (parsers.rs lines 159-161). -/
def one_of (t : List (Parser I O)) : OneOfParser I O :=
  ⟨t⟩

/-- The chained binary alternation p.or(q1).or(q2)...: the spec's repeated
binary or, against which OneOfParser is compared. -/
def orChain : Parser I O → List (Parser I O) → Parser I O
  | p, [] => p
  | p, q :: rest => orChain (OrParser.mk p q).parse rest

/-- Two parse results agree when they are the same success, or are both
failures; used to state that two parsers produce the same result up to the
text of the error message. -/
def resultAgree : ParseResult I O → ParseResult I O → Prop
  | .ok a, .ok b => a = b
  | .error _, .error _ => True
  | _, _ => False

/-- Embedding of struct LiteralParser from slice_parsers.rs: recognizes one
leading element equal to the stored literal. -/
structure LiteralParser (T : Type) where
  literal : T

/-- Embedding of LiteralParser::parse (slice_parsers.rs lines 119-128): the
empty-input check and the equality test on the leading element, with the
slice embedded as a list. -/
def LiteralParser.parse [DecidableEq T] (self : LiteralParser T)
    (data : List T) : ParseResult (List T) T :=
  match data with
  | [] => .error "ran out of data"
  | x :: rest =>
    if x = self.literal then .ok (x, rest) else .error "Literal mismatch"

/-- Embedding of the function lit (slice_parsers.rs lines 52-54). -/
def lit (l : T) : LiteralParser T :=
  ⟨l⟩

/-- Claim C10: on every input, a OneOfParser built from an empty vector of
options fails with the AllOptionsFailed error and never succeeds. -/
theorem oneOf_parse_empty_options (data : I) :
    (one_of ([] : List (Parser I O))).parse data =
      Except.error "All options failed" :=
  rfl

/-- Claim C7: the literal matcher fails with the end-of-input error on empty
input, fails with the mismatch error when the leading element differs from
the literal, and otherwise succeeds with the leading element as output and
the input minus that element as remainder. -/
theorem lit_parse_characterization [DecidableEq T] (l : T) (data : List T) :
    (data = [] → (lit l).parse data = Except.error "ran out of data") ∧
    (∀ x rest, data = x :: rest → x ≠ l →
      (lit l).parse data = Except.error "Literal mismatch") ∧
    (∀ x rest, data = x :: rest → x = l →
      (lit l).parse data = Except.ok (x, rest)) := by
  refine ⟨?_, ?_, ?_⟩
  · rintro rfl; rfl
  · rintro x rest rfl hx
    simp [LiteralParser.parse, lit, hx]
  · rintro x rest rfl rfl
    simp [LiteralParser.parse, lit]

/-- Witness for C7 at concrete inputs: empty input, mismatching head and
matching head. -/
theorem lit_parse_characterization_witness :
    ((lit (1 : Nat)).parse [] = Except.error "ran out of data") ∧
    ((lit (1 : Nat)).parse [2, 3] = Except.error "Literal mismatch") ∧
    ((lit (1 : Nat)).parse [1, 2] = Except.ok (1, [2])) :=
  ⟨(lit_parse_characterization 1 []).1 rfl,
   (lit_parse_characterization 1 [2, 3]).2.1 2 [3] rfl (by decide),
   (lit_parse_characterization 1 [1, 2]).2.2 1 [2] rfl rfl⟩

/-- Claim C8: sequencing runs the first parser, on success runs the second
parser on the first's remainder, succeeds with the paired outputs and the
second's remainder when both succeed, and fails with the failing parser's
error unchanged when either fails. -/
theorem then_parse_characterization (c : ChainedParser I A B) (data : I) :
    (∀ a d2 b rem, c.first data = Except.ok (a, d2) →
      c.second d2 = Except.ok (b, rem) →
      c.parse data = Except.ok ((a, b), rem)) ∧
    (∀ e, c.first data = Except.error e → c.parse data = Except.error e) ∧
    (∀ a d2 e, c.first data = Except.ok (a, d2) →
      c.second d2 = Except.error e → c.parse data = Except.error e) := by
  refine ⟨?_, ?_, ?_⟩
  · intro a d2 b rem h1 h2; simp [ChainedParser.parse, h1, h2]
  · intro e h; simp [ChainedParser.parse, h]
  · intro a d2 e h1 h2; simp [ChainedParser.parse, h1, h2]

/-- Witness for C8, realizing the claim's concrete scenario: on tokens
[1,2,3] the parser lit(1).then(lit(2)) succeeds with output (1,2) and
remainder [3]. -/
theorem then_parse_characterization_witness :
    ((ChainedParser.mk (lit (1 : Nat)).parse (lit 2).parse).first [1, 2, 3] =
      Except.ok (1, [2, 3])) ∧
    ((ChainedParser.mk (lit (1 : Nat)).parse (lit 2).parse).second [2, 3] =
      Except.ok (2, [3])) ∧
    ((ChainedParser.mk (lit (1 : Nat)).parse (lit 2).parse).parse [1, 2, 3] =
      Except.ok ((1, 2), [3])) :=
  ⟨rfl, rfl,
   (then_parse_characterization
      (ChainedParser.mk (lit (1 : Nat)).parse (lit 2).parse) [1, 2, 3]).1
      1 [2, 3] 2 [3] rfl rfl⟩

/-- Claim C6: mapping succeeds exactly when the underlying parser succeeds;
on success the remainder is unchanged and the output is the mapper applied
to the underlying output; on failure the underlying error is propagated
unchanged. -/
theorem map_parse_characterization (m : MapParser I O T) (data : I) :
    ((∃ r, m.parse data = Except.ok r) ↔ (∃ r, m.parser data = Except.ok r)) ∧
    (∀ o rest, m.parser data = Except.ok (o, rest) →
      m.parse data = Except.ok (m.mapper o, rest)) ∧
    (∀ e, m.parser data = Except.error e → m.parse data = Except.error e) := by
  refine ⟨?_, ?_, ?_⟩
  · cases h : m.parser data with
    | ok r => simp [MapParser.parse, Except.map, h]
    | error e => simp [MapParser.parse, Except.map, h]
  · intro o rest h; simp [MapParser.parse, Except.map, h]
  · intro e h; simp [MapParser.parse, Except.map, h]

/-- Witness for C6 at a concrete parser and input: mapping the successor
function over lit(1) on [1,2]. -/
theorem map_parse_characterization_witness :
    ((MapParser.mk (lit (1 : Nat)).parse (fun n => n + 1)).parser [1, 2] =
      Except.ok (1, [2])) ∧
    ((MapParser.mk (lit (1 : Nat)).parse (fun n => n + 1)).parse [1, 2] =
      Except.ok (2, [2])) :=
  ⟨rfl,
   (map_parse_characterization
      (MapParser.mk (lit (1 : Nat)).parse (fun n => n + 1)) [1, 2]).2.1
      1 [2] rfl⟩

/-- Claim C5: opt never fails; when the wrapped parser succeeds it returns
some of the output with that success's remainder, and when the wrapped
parser fails it returns none with the original untouched input as
remainder. -/
theorem opt_parse_never_fails (t : Parser I O) (data : I) :
    (∃ o rem, (opt t).parse data = Except.ok (o, rem)) ∧
    (∀ o rest, t data = Except.ok (o, rest) →
      (opt t).parse data = Except.ok (some o, rest)) ∧
    (∀ e, t data = Except.error e →
      (opt t).parse data = Except.ok (none, data)) := by
  refine ⟨?_, ?_, ?_⟩
  · cases h : t data with
    | ok r => exact ⟨some r.1, r.2, by simp [OptionParser.parse, opt, h]⟩
    | error e => exact ⟨none, data, by simp [OptionParser.parse, opt, h]⟩
  · intro o rest h; simp [OptionParser.parse, opt, h]
  · intro e h; simp [OptionParser.parse, opt, h]

/-- Witness for C5 at concrete inputs: a succeeding wrapped parser and a
failing one, the latter returning the original input unchanged. -/
theorem opt_parse_never_fails_witness :
    ((lit (1 : Nat)).parse [1, 2] = Except.ok (1, [2])) ∧
    ((opt (lit (1 : Nat)).parse).parse [1, 2] = Except.ok (some 1, [2])) ∧
    ((lit (5 : Nat)).parse [1, 2] = Except.error "Literal mismatch") ∧
    ((opt (lit (5 : Nat)).parse).parse [1, 2] = Except.ok (none, [1, 2])) :=
  ⟨rfl,
   (opt_parse_never_fails (lit (1 : Nat)).parse [1, 2]).2.1 1 [2] rfl,
   rfl,
   (opt_parse_never_fails (lit (5 : Nat)).parse [1, 2]).2.2
      "Literal mismatch" rfl⟩

/-- Claim C2: ordered alternation returns the first parser's result verbatim
when it succeeds; when the first parser fails the second is run on the
original input snapshot, the combinator's result being exactly the second
parser's result there; when both fail the surfaced error is the second
parser's error. -/
theorem or_parse_ordered_choice (p : OrParser I O) (data : I) :
    (∀ a d2, p.first data = Except.ok (a, d2) →
      p.parse data = Except.ok (a, d2)) ∧
    (∀ e, p.first data = Except.error e → p.parse data = p.second data) ∧
    (∀ e1 e2, p.first data = Except.error e1 →
      p.second data = Except.error e2 → p.parse data = Except.error e2) := by
  refine ⟨?_, ?_, ?_⟩
  · intro a d2 h; simp [OrParser.parse, h]
  · intro e h
    cases hs : p.second data with
    | ok r =>
      obtain ⟨b, remain⟩ := r
      simp [OrParser.parse, h, hs]
    | error e2 => simp [OrParser.parse, h, hs]
  · intro e1 e2 h1 h2; simp [OrParser.parse, h1, h2]

/-- Witness for C2 at concrete inputs: a succeeding first branch returned
verbatim, and a failing first branch handing the original input to the
second branch. -/
theorem or_parse_ordered_choice_witness :
    ((OrParser.mk (lit (1 : Nat)).parse (lit 2).parse).first [1, 9] =
      Except.ok (1, [9])) ∧
    ((OrParser.mk (lit (1 : Nat)).parse (lit 2).parse).parse [1, 9] =
      Except.ok (1, [9])) ∧
    ((OrParser.mk (lit (5 : Nat)).parse (lit 1).parse).first [1, 9] =
      Except.error "Literal mismatch") ∧
    ((OrParser.mk (lit (5 : Nat)).parse (lit 1).parse).parse [1, 9] =
      (OrParser.mk (lit (5 : Nat)).parse (lit 1).parse).second [1, 9]) :=
  ⟨rfl,
   (or_parse_ordered_choice
      (OrParser.mk (lit (1 : Nat)).parse (lit 2).parse) [1, 9]).1 1 [9] rfl,
   rfl,
   (or_parse_ordered_choice
      (OrParser.mk (lit (5 : Nat)).parse (lit 1).parse) [1, 9]).2.1
      "Literal mismatch" rfl⟩

/-- The repetition loop with accumulator v equals the accumulator-free
recursion with v prepended to its output; the loop diverges exactly when the
recursion does. -/
theorem repeat_parseLoop_eq_runs (self : RepeatParser I O) (fuel : Nat) :
    ∀ (remain : I) (v : List O),
      RepeatParser.parseLoop self fuel remain v =
        (RepeatParser.runs self fuel remain).map
          (fun vr => Except.ok (v ++ vr.1, vr.2)) := by
  induction fuel with
  | zero => intro remain v; rfl
  | succ fuel ih =>
    intro remain v
    cases h : self.parser remain with
    | ok oi =>
      obtain ⟨o, rest⟩ := oi
      simp only [RepeatParser.parseLoop, RepeatParser.runs, h]
      rw [ih]
      cases hr : RepeatParser.runs self fuel rest with
      | none => rfl
      | some vr => simp
    | error e =>
      simp [RepeatParser.parseLoop, RepeatParser.runs, h]

/-- Claim C4: every terminating run of RepeatParser::parse succeeds (never
an error), producing exactly the outputs of successive applications of the
wrapped parser in order up to its first failure, with the remainder from
before the failing attempt; in particular when the wrapped parser fails
immediately the result is the empty sequence with the input unchanged. -/
theorem repeat_parse_eq_runs (self : RepeatParser I O) (fuel : Nat)
    (data : I) :
    RepeatParser.parse self fuel data =
      (RepeatParser.runs self fuel data).map (fun vr => Except.ok vr) := by
  rw [RepeatParser.parse, repeat_parseLoop_eq_runs]
  cases RepeatParser.runs self fuel data <;> simp

/-- The separated-repetition loop with accumulator v equals the
accumulator-free recursion counting from the length of v, with v prepended
to a successful output and errors kept unchanged. -/
theorem repsep_parseLoop_eq_runs (self : RepSepParser I A B) (fuel : Nat) :
    ∀ (remain : I) (v : List A),
      RepSepParser.parseLoop self fuel remain v =
        (RepSepParser.runs self fuel remain v.length).map (fun r =>
          match r with
          | .ok (w, rem) => .ok (v ++ w, rem)
          | .error e => .error e) := by
  induction fuel with
  | zero => intro remain v; rfl
  | succ fuel ih =>
    intro remain v
    cases h : self.rep remain with
    | error err =>
      simp [RepSepParser.parseLoop, RepSepParser.runs, h]
    | ok oi =>
      obtain ⟨o, rest⟩ := oi
      cases hs : self.sep rest with
      | ok si =>
        obtain ⟨b, rest2⟩ := si
        simp only [RepSepParser.parseLoop, RepSepParser.runs, h, hs]
        rw [ih]
        simp only [List.length_append, List.length_singleton]
        cases hr : RepSepParser.runs self fuel rest2 (v.length + 1) with
        | none => rfl
        | some r =>
          cases r with
          | ok wr =>
            obtain ⟨w, rem⟩ := wr
            simp
          | error e => simp
      | error e =>
        simp only [RepSepParser.parseLoop, RepSepParser.runs, h, hs]
        by_cases hlen : v.length + 1 < self.min_reps
        · simp [List.length_append, hlen]
        · simp [List.length_append, hlen]

/-- Claim C1: every terminating run of RepSepParser::parse behaves as the
spec describes: rep is parsed, a rep failure escalates its error
immediately with no partial list surfaced; on rep success sep is attempted
and its remainder is the next iteration's input; when sep fails the parse
fails with the NotEnoughReps(required, got) error if the accumulated count
is below min_reps and otherwise succeeds with the accumulated outputs in
order and the remainder from just after the last successful rep, before the
failed separator attempt. -/
theorem repsep_parse_eq_runs (self : RepSepParser I A B) (fuel : Nat)
    (data : I) :
    RepSepParser.parse self fuel data = RepSepParser.runs self fuel data 0 := by
  rw [RepSepParser.parse, repsep_parseLoop_eq_runs]
  simp only [List.length_nil]
  cases hr : RepSepParser.runs self fuel data 0 with
  | none => rfl
  | some r =>
    cases r with
    | ok wr =>
      obtain ⟨w, rem⟩ := wr
      simp
    | error e => simp

/-- A successful result of the accumulator-free separated repetition always
holds at least one output. -/
theorem repsep_runs_ok_nonempty (self : RepSepParser I A B) (fuel : Nat)
    (data : I) (cnt : Nat) (w : List A) (rem : I)
    (h : RepSepParser.runs self fuel data cnt = some (Except.ok (w, rem))) :
    w ≠ [] := by
  cases fuel with
  | zero => simp [RepSepParser.runs] at h
  | succ fuel =>
    rw [RepSepParser.runs] at h
    cases hr : self.rep data with
    | error err => simp [hr] at h
    | ok oi =>
      obtain ⟨o, rest⟩ := oi
      cases hs : self.sep rest with
      | ok si =>
        obtain ⟨b, rest2⟩ := si
        simp only [hr, hs] at h
        cases hrun : RepSepParser.runs self fuel rest2 (cnt + 1) with
        | none => simp [hrun] at h
        | some r =>
          cases r with
          | ok wr =>
            obtain ⟨w2, rem2⟩ := wr
            simp only [hrun, Option.map_some, Option.some.injEq,
              Except.ok.injEq, Prod.mk.injEq] at h
            rcases h with ⟨rfl, -⟩
            simp
          | error e => simp [hrun] at h
      | error e =>
        simp only [hr, hs] at h
        by_cases hlen : cnt + 1 < self.min_reps
        · simp [hlen] at h
        · simp only [hlen, ite_false, if_false, Option.some.injEq,
            Except.ok.injEq, Prod.mk.injEq, if_neg] at h
          rcases h with ⟨rfl, -⟩
          simp

/-- Claim C9: whenever RepSepParser::parse succeeds, the returned output
vector is non-empty — a first-iteration rep failure is escalated as an
error rather than returning an empty success, even with min_reps = 0. -/
theorem repsep_parse_ok_nonempty (self : RepSepParser I A B) (fuel : Nat)
    (data : I) (v : List A) (rem : I)
    (h : RepSepParser.parse self fuel data = some (Except.ok (v, rem))) :
    v ≠ [] := by
  rw [RepSepParser.parse, repsep_parseLoop_eq_runs] at h
  simp only [List.length_nil] at h
  cases hr : RepSepParser.runs self fuel data 0 with
  | none => rw [hr] at h; simp at h
  | some r =>
    cases r with
    | ok wr =>
      obtain ⟨w, rem2⟩ := wr
      rw [hr] at h
      simp only [Option.map_some, List.nil_append, Option.some.injEq,
        Except.ok.injEq, Prod.mk.injEq] at h
      rcases h with ⟨rfl, -⟩
      exact repsep_runs_ok_nonempty self fuel data 0 _ _ hr
    | error e => rw [hr] at h; simp at h

/-- Witness for C9 at a concrete repsep parser: repsep(lit 0, lit 1) with
min_reps 1 on [0,1,0] succeeds with the non-empty output [0,0]. -/
theorem repsep_parse_ok_nonempty_witness :
    ((repsep (lit (0 : Nat)).parse (lit 1).parse).parse 3 [0, 1, 0] =
      some (Except.ok ([0, 0], []))) ∧
    ([0, 0] : List Nat) ≠ [] :=
  ⟨rfl,
   repsep_parse_ok_nonempty (repsep (lit (0 : Nat)).parse (lit 1).parse)
      3 [0, 1, 0] [0, 0] [] rfl⟩

/-- The chained alternation only looks at its head parser through the head
parser's value on the given input. -/
theorem orChain_congr (ps : List (Parser I O)) :
    ∀ (p q : Parser I O) (data : I), p data = q data →
      orChain p ps data = orChain q ps data := by
  induction ps with
  | nil =>
    intro p q data h
    simpa [orChain] using h
  | cons r rest ih =>
    intro p q data h
    simp only [orChain]
    refine ih _ _ data ?_
    simp [OrParser.parse, h]

/-- When the head parser succeeds, the chained alternation returns its
result verbatim. -/
theorem orChain_of_ok (ps : List (Parser I O)) :
    ∀ (p : Parser I O) (data : I) (a : O) (d2 : I),
      p data = Except.ok (a, d2) → orChain p ps data = Except.ok (a, d2) := by
  induction ps with
  | nil =>
    intro p data a d2 h
    simpa [orChain] using h
  | cons q rest ih =>
    intro p data a d2 h
    simp only [orChain]
    exact ih _ data a d2 (by simp [OrParser.parse, h])

/-- The for loop of OneOfParser::parse agrees with the chained binary
alternation: same success result, and failures exactly together. -/
theorem oneOf_parseList_agree (ps : List (Parser I O)) :
    ∀ (p : Parser I O) (data : I),
      resultAgree (OneOfParser.parseList (p :: ps) data) (orChain p ps data) := by
  induction ps with
  | nil =>
    intro p data
    cases h : p data with
    | ok r =>
      obtain ⟨a, d2⟩ := r
      simp [OneOfParser.parseList, orChain, resultAgree, h]
    | error e =>
      simp [OneOfParser.parseList, orChain, resultAgree, h]
  | cons q rest ih =>
    intro p data
    cases h : p data with
    | ok r =>
      obtain ⟨a, d2⟩ := r
      have h2 : orChain p (q :: rest) data = Except.ok (a, d2) :=
        orChain_of_ok (q :: rest) p data a d2 h
      simp [OneOfParser.parseList, resultAgree, h, h2]
    | error e =>
      have h2 : orChain p (q :: rest) data = orChain q rest data := by
        simp only [orChain]
        refine orChain_congr rest _ _ data ?_
        cases hq : q data with
        | ok r =>
          obtain ⟨b, rem⟩ := r
          simp [OrParser.parse, h, hq]
        | error e2 => simp [OrParser.parse, h, hq]
      have h3 : OneOfParser.parseList (p :: q :: rest) data =
          OneOfParser.parseList (q :: rest) data := by
        simp [OneOfParser.parseList, h]
      rw [h2, h3]
      exact ih q data

/-- Every error the for loop of OneOfParser::parse produces carries the
AllOptionsFailed message. -/
theorem oneOf_parseList_error_msg (l : List (Parser I O)) :
    ∀ (data : I) (e : String),
      OneOfParser.parseList l data = Except.error e →
      e = "All options failed" := by
  induction l with
  | nil =>
    intro data e h
    simp only [OneOfParser.parseList, Except.error.injEq] at h
    exact h.symm
  | cons p rest ih =>
    intro data e h
    cases hp : p data with
    | ok r =>
      rw [OneOfParser.parseList, hp] at h
      simp at h
    | error e2 =>
      rw [OneOfParser.parseList, hp] at h
      exact ih data e h

/-- Claim C3: on every input, a OneOfParser over a non-empty list of options
produces the same result as the chained binary alternation of those options
— identical success output and remainder, taken from the first succeeding
option, and failure exactly when every option fails, in which case the
OneOfParser's error is AllOptionsFailed. -/
theorem oneOf_parse_agrees_orChain (p : Parser I O) (ps : List (Parser I O))
    (data : I) :
    resultAgree ((one_of (p :: ps)).parse data) (orChain p ps data) ∧
    (∀ e, (one_of (p :: ps)).parse data = Except.error e →
      e = "All options failed") := by
  constructor
  · exact oneOf_parseList_agree ps p data
  · intro e h
    exact oneOf_parseList_error_msg (p :: ps) data e h

/-- Witness for C3, realizing the claim's concrete scenario E: one_of
[lit 2, lit 5] on [9] fails with the AllOptionsFailed message. -/
theorem oneOf_parse_agrees_orChain_witness :
    ((one_of [(lit (2 : Nat)).parse, (lit 5).parse]).parse [9] =
      Except.error "All options failed") ∧
    "All options failed" = "All options failed" :=
  ⟨rfl,
   (oneOf_parse_agrees_orChain (lit (2 : Nat)).parse [(lit 5).parse] [9]).2
      "All options failed" rfl⟩

end Peruse
